import Mathlib

/-!
Verification of the algo-trading repository's signal classifier, SMA
calculator, retry executor, batch orchestration routes and ticker
administration actions, shallowly embedded over rationals.  JavaScript
numbers are modelled by `ℚ` where the code stays finite, and by `JsNum`
(finite, +Infinity, -Infinity, NaN) where a division by zero or a failed
parse can produce a non-finite value.
-/

namespace AlgoTrading

/-- Result of a JavaScript arithmetic expression that may be non-finite:
a finite rational, positive or negative infinity, or NaN. -/
inductive JsNum where
  | fin (q : ℚ)
  | posInf
  | negInf
  | nan
deriving DecidableEq, Repr

/-- JavaScript division `a / b` on the rational embedding: the exact
quotient when `b ≠ 0`; when `b` is (positive) zero the sign of `a`
selects +Infinity, -Infinity, or NaN. -/
def jsDiv (a b : ℚ) : JsNum :=
  if b = 0 then
    (if 0 < a then JsNum.posInf else if a < 0 then JsNum.negInf else JsNum.nan)
  else JsNum.fin (a / b)

/-- JavaScript strict `>` comparison of a possibly non-finite number
against a finite threshold (`NaN > t` is false). -/
def JsNum.gtQ : JsNum → ℚ → Bool
  | JsNum.fin q, t => q > t
  | JsNum.posInf, _ => true
  | JsNum.negInf, _ => false
  | JsNum.nan, _ => false

/-- JavaScript strict `<` comparison of a possibly non-finite number
against a finite threshold (`NaN < t` is false). -/
def JsNum.ltQ : JsNum → ℚ → Bool
  | JsNum.fin q, t => q < t
  | JsNum.posInf, _ => false
  | JsNum.negInf, _ => true
  | JsNum.nan, _ => false

/-- The possible trading actions of `analyzeTicker` in
`src/lib/trading-strategy`. -/
inductive Action where
  | buy
  | sell
  | hold
deriving DecidableEq, Repr

/-- `THRESHOLD_PERCENT = 0.01` from `src/lib/trading-strategy`. -/
def THRESHOLD_PERCENT : ℚ := 1 / 100

/-- The classification step of `analyzeTicker`:
`deviation = (currentPrice - sma200) / sma200`, then `buy` when
`deviation > threshold`, `sell` when `deviation < -threshold`,
otherwise `hold`.  There is no guard on `sma200` in the source. -/
def classifyAction (currentPrice sma200 : ℚ) : Action :=
  let deviation := jsDiv (currentPrice - sma200) sma200
  if deviation.gtQ THRESHOLD_PERCENT then Action.buy
  else if deviation.ltQ (-THRESHOLD_PERCENT) then Action.sell
  else Action.hold

/-- The trading signal assembled by `analyzeTicker` (the reason string,
which only reformats these numbers, is omitted here; route-level models
below carry reasons explicitly). -/
structure TradingSignal where
  symbol : String
  action : Action
  currentPrice : ℚ
  sma200 : ℚ
  deviation : JsNum
deriving DecidableEq, Repr

/-- The signal-construction step of `analyzeTicker` once
`getCurrentPriceAndSMA` has produced `currentPrice` and `sma200`: it
computes the deviation and classifies, totally, with no zero or sign
check on `sma200`. -/
def analyzeTickerSignal (symbol : String) (currentPrice sma200 : ℚ) : TradingSignal :=
  { symbol := symbol
    action := classifyAction currentPrice sma200
    currentPrice := currentPrice
    sma200 := sma200
    deviation := jsDiv (currentPrice - sma200) sma200 }

/-- Deviation as the spec writes it, for statements restricted to a
nonzero moving average. -/
def deviationOf (currentPrice sma200 : ℚ) : ℚ :=
  (currentPrice - sma200) / sma200

/-- `calculateSMA` from `src/lib/sma.ts`: error on fewer data points
than the period, otherwise the sum of `prices.slice(-period)` divided
by the period.  (`slice(-period)` keeps the whole array when
`period = 0`, otherwise the last `period` elements.) -/
def calculateSMA (prices : List ℚ) (period : Nat) : Except String ℚ :=
  if prices.length < period then
    Except.error ("Not enough data points. Need " ++ toString period ++
      ", got " ++ toString prices.length)
  else
    Except.ok ((if period = 0 then prices else prices.drop (prices.length - period)).sum /
      (period : ℚ))

/-- Arithmetic mean of a list of rationals. -/
def listMean (l : List ℚ) : ℚ := l.sum / (l.length : ℚ)

/-- Claim C1: with a positive moving average, the classifier returns
`buy` exactly when the deviation strictly exceeds 1/100, `sell` exactly
when it is strictly below -1/100, `hold` otherwise; deviations of
exactly 1/100 or -1/100 give `hold`. -/
theorem classifyAction_spec (c s : ℚ) (hs : 0 < s) :
    (classifyAction c s = Action.buy ↔ deviationOf c s > 1 / 100) ∧
    (classifyAction c s = Action.sell ↔ deviationOf c s < -(1 / 100)) ∧
    (classifyAction c s = Action.hold ↔
      (-(1 / 100) ≤ deviationOf c s ∧ deviationOf c s ≤ 1 / 100)) ∧
    (deviationOf c s = 1 / 100 → classifyAction c s = Action.hold) ∧
    (deviationOf c s = -(1 / 100) → classifyAction c s = Action.hold) := by
  have hne : s ≠ 0 := ne_of_gt hs
  by_cases h1 : deviationOf c s > 1 / 100
  · have hc : classifyAction c s = Action.buy := by
      simp only [deviationOf] at h1
      simp only [classifyAction, THRESHOLD_PERCENT, jsDiv, if_neg hne, JsNum.gtQ,
        decide_eq_true_eq]
      rw [if_pos h1]
    rw [hc]
    refine ⟨iff_of_true rfl h1, iff_of_false (by decide) (by intro h; linarith),
      iff_of_false (by decide) ?_, ?_, ?_⟩
    · rintro ⟨_, hb⟩; linarith
    · intro h; rw [h] at h1; linarith
    · intro h; rw [h] at h1; linarith
  · by_cases h2 : deviationOf c s < -(1 / 100)
    · have hc : classifyAction c s = Action.sell := by
        simp only [deviationOf] at h1 h2
        simp only [classifyAction, THRESHOLD_PERCENT, jsDiv, if_neg hne, JsNum.gtQ,
          JsNum.ltQ, decide_eq_true_eq]
        rw [if_neg h1, if_pos h2]
      rw [hc]
      refine ⟨iff_of_false (by decide) h1, iff_of_true rfl h2,
        iff_of_false (by decide) ?_, ?_, ?_⟩
      · rintro ⟨ha, _⟩; linarith
      · intro h; rw [h] at h2; linarith
      · intro h; rw [h] at h2; linarith
    · have hc : classifyAction c s = Action.hold := by
        simp only [deviationOf] at h1 h2
        simp only [classifyAction, THRESHOLD_PERCENT, jsDiv, if_neg hne, JsNum.gtQ,
          JsNum.ltQ, decide_eq_true_eq]
        rw [if_neg h1, if_neg h2]
      rw [hc]
      exact ⟨iff_of_false (by decide) h1, iff_of_false (by decide) h2,
        iff_of_true rfl ⟨not_lt.mp h2, not_lt.mp h1⟩, fun _ => rfl, fun _ => rfl⟩

/-- Witness for C1 at `currentPrice = 105`, `movingAverage = 100`
(deviation `1/20 > 1/100`, also the spec's own worked example). -/
theorem classifyAction_spec_witness :
    (0 : ℚ) < 100 ∧
    ((classifyAction 105 100 = Action.buy ↔ deviationOf 105 100 > 1 / 100) ∧
     (classifyAction 105 100 = Action.sell ↔ deviationOf 105 100 < -(1 / 100)) ∧
     (classifyAction 105 100 = Action.hold ↔
       (-(1 / 100) ≤ deviationOf 105 100 ∧ deviationOf 105 100 ≤ 1 / 100)) ∧
     (deviationOf 105 100 = 1 / 100 → classifyAction 105 100 = Action.hold) ∧
     (deviationOf 105 100 = -(1 / 100) → classifyAction 105 100 = Action.hold)) :=
  ⟨by norm_num, classifyAction_spec 105 100 (by norm_num)⟩

/-- Claim C2: `calculateSMA` fails with the insufficient-data message
(reporting required and actual counts) on sequences shorter than the
window; on length exactly `period` it returns the mean of the whole
sequence; on longer sequences it returns the mean of the trailing
`period`-element suffix. -/
theorem calculateSMA_spec (prices front tail : List ℚ) (period : Nat) (hp : 0 < period) :
    (prices.length < period →
      calculateSMA prices period =
        Except.error ("Not enough data points. Need " ++ toString period ++
          ", got " ++ toString prices.length)) ∧
    (prices.length = period → calculateSMA prices period = Except.ok (listMean prices)) ∧
    (prices = front ++ tail → tail.length = period →
      calculateSMA prices period = Except.ok (listMean tail)) := by
  have hp0 : period ≠ 0 := Nat.pos_iff_ne_zero.mp hp
  refine ⟨fun h => ?_, fun h => ?_, fun hsplit hlen => ?_⟩
  · simp only [calculateSMA, if_pos h]
  · have hnl : ¬ prices.length < period := by omega
    simp only [calculateSMA, if_neg hnl, if_neg hp0]
    rw [h, Nat.sub_self, List.drop_zero, listMean, h]
  · have hlen2 : prices.length = front.length + period := by
      rw [hsplit, List.length_append, hlen]
    have hnl : ¬ prices.length < period := by omega
    have hsub : prices.length - period = front.length := by omega
    have hdrop : prices.drop (prices.length - period) = tail := by
      rw [hsub, hsplit]
      exact List.drop_left front tail
    simp only [calculateSMA, if_neg hnl, if_neg hp0]
    rw [hdrop, listMean, hlen]

/-- Witness for C2 at `prices = [1, 2, 3]`, `period = 2` (the suffix
decomposition `[1] ++ [2, 3]` selects the last two elements). -/
theorem calculateSMA_spec_witness :
    0 < 2 ∧
    ((([1, 2, 3] : List ℚ).length < 2 →
      calculateSMA [1, 2, 3] 2 =
        Except.error ("Not enough data points. Need " ++ toString 2 ++
          ", got " ++ toString ([1, 2, 3] : List ℚ).length)) ∧
    (([1, 2, 3] : List ℚ).length = 2 →
      calculateSMA [1, 2, 3] 2 = Except.ok (listMean [1, 2, 3])) ∧
    (([1, 2, 3] : List ℚ) = [1] ++ [2, 3] → ([2, 3] : List ℚ).length = 2 →
      calculateSMA [1, 2, 3] 2 = Except.ok (listMean [2, 3]))) :=
  ⟨by decide, calculateSMA_spec [1, 2, 3] [1] [2, 3] 2 (by decide)⟩

/-- Claim C3 (evidence of the missing guard): with a zero moving
average the signal-construction step of `analyzeTicker` does not fail;
it silently classifies.  A positive price over a zero SMA yields
deviation +Infinity and a `buy` signal, and a negative moving average
is likewise classified (here `sell`) instead of being rejected. -/
theorem analyzeTickerSignal_zero_sma_classifies :
    (analyzeTickerSignal "TEST" 5 0).action = Action.buy ∧
    (analyzeTickerSignal "TEST" 5 0).deviation = JsNum.posInf ∧
    (analyzeTickerSignal "TEST" 5 (-100)).action = Action.sell := by
  refine ⟨?_, ?_, ?_⟩ <;>
    norm_num [analyzeTickerSignal, classifyAction, jsDiv, THRESHOLD_PERCENT,
      JsNum.gtQ, JsNum.ltQ]

/-- A per-ticker entry as the HTTP routes shape it: action is a string
("buy" / "sell" / "hold" from successful analyses, "error" for failed
ones) and the reason string is carried through. -/
structure RouteSignal where
  symbol : String
  action : String
  currentPrice : ℚ
  sma200 : ℚ
  deviation : ℚ
  reason : String
deriving DecidableEq, Repr

/-- The trading-bot route's per-ticker aggregation: the outcome of
`analyzeTicker` for each configured ticker is pushed into the signals
array; a failed ticker becomes an entry with action "error", zeroed
numbers, and the failure message as reason (the falsy empty message
falls back to "Failed to analyze"). -/
def tradingBotSignals (outcomes : List (String × Except String RouteSignal)) :
    List RouteSignal :=
  outcomes.map fun p =>
    match p.2 with
    | Except.ok s => s
    | Except.error msg =>
      { symbol := p.1, action := "error", currentPrice := 0, sma200 := 0,
        deviation := 0, reason := if msg = "" then "Failed to analyze" else msg }

/-- Shape of the trading-bot route's JSON response in dry-run mode. -/
structure TradingBotResponse where
  success : Bool
  dryRun : Bool
  signals : List RouteSignal
deriving DecidableEq, Repr

/-- The trading-bot route's dry-run run: it aggregates the per-ticker
outcomes and always answers `success: true`; there is no check that any
ticker was analyzed successfully. -/
def tradingBotRunDry (outcomes : List (String × Except String RouteSignal)) :
    TradingBotResponse :=
  { success := true, dryRun := true, signals := tradingBotSignals outcomes }

/-- The weekly-analysis routes' aggregation loop: a failed ticker is
skipped ("Skip failed analyses" in the source), so only successful
analyses are collected. -/
def weeklyAnalyses (outcomes : List (String × Except String RouteSignal)) :
    List RouteSignal :=
  outcomes.filterMap fun p => p.2.toOption

/-- The weekly-analysis routes' batch step up to delivery: when no
ticker was analyzed successfully the handler throws
"No tickers were successfully analyzed"; otherwise the collected
aggregate is handed on to chart generation and messaging. -/
def weeklyAnalysisRun (outcomes : List (String × Except String RouteSignal)) :
    Except String (List RouteSignal) :=
  if (weeklyAnalyses outcomes).length = 0 then
    Except.error "No tickers were successfully analyzed"
  else Except.ok (weeklyAnalyses outcomes)

/-- A concrete successful hold signal for concrete batch evaluations. -/
def sampleHold : RouteSignal :=
  { symbol := "AAPL", action := "hold", currentPrice := 100, sma200 := 100,
    deviation := 0, reason := "within threshold" }

/-- Claim C4 counterexample: in the weekly-analysis batch route, a run
over N = 2 tickers with M = 1 failure hands delivery an aggregate of
only 1 entry — the failed ticker is skipped, not recorded as an
`error`-action entry — contradicting "exactly N entries, exactly M with
action error". -/
theorem weekly_batch_drops_failed_tickers :
    weeklyAnalysisRun
        [("AAPL", Except.ok sampleHold), ("MSFT", Except.error "fetch failed")] =
      Except.ok [sampleHold] ∧
    ([sampleHold] : List RouteSignal).length = 1 ∧
    ([sampleHold] : List RouteSignal).countP (fun s => s.action == "error") = 0 :=
  ⟨rfl, rfl, rfl⟩

/-- Claim C4 amended: in the trading-bot route the aggregate has
exactly N entries, exactly M of which (the failed tickers) have action
"error" carrying the failure reason, and the dry-run call reports
success; in the weekly-analysis routes failed tickers are skipped, so
the aggregate handed to delivery has exactly N - M entries, none with
action "error", and the batch proceeds to delivery exactly when
N - M > 0. -/
theorem batch_aggregate_spec (outcomes : List (String × Except String RouteSignal))
    (hok : ∀ p ∈ outcomes, ∀ s, p.2 = Except.ok s → s.action ≠ "error") :
    (tradingBotSignals outcomes).length = outcomes.length ∧
    (tradingBotSignals outcomes).countP (fun s => s.action == "error") =
      outcomes.countP (fun p => !p.2.isOk) ∧
    (∀ sym msg, (sym, Except.error msg) ∈ outcomes → msg ≠ "" →
      { symbol := sym, action := "error", currentPrice := 0, sma200 := 0,
        deviation := 0, reason := msg } ∈ tradingBotSignals outcomes) ∧
    (tradingBotRunDry outcomes).success = true ∧
    (weeklyAnalyses outcomes).length = outcomes.countP (fun p => p.2.isOk) ∧
    (weeklyAnalyses outcomes).countP (fun s => s.action == "error") = 0 ∧
    (0 < outcomes.countP (fun p => p.2.isOk) →
      weeklyAnalysisRun outcomes = Except.ok (weeklyAnalyses outcomes)) := by
  refine ⟨?_, ?_, ?_, rfl, ?_, ?_, ?_⟩
  · simp [tradingBotSignals]
  · rw [tradingBotSignals, List.countP_map]
    refine List.countP_congr fun p hp => ?_
    cases h2 : p.2 with
    | ok s =>
      have hs : s.action ≠ "error" := hok p hp s h2
      simp [Function.comp, h2, Except.isOk, Except.toBool, hs]
    | error msg => simp [Function.comp, h2, Except.isOk, Except.toBool]
  · intro sym msg hmem hmsg
    rw [tradingBotSignals]
    refine List.mem_map.mpr ⟨(sym, Except.error msg), hmem, ?_⟩
    simp [hmsg]
  · rw [weeklyAnalyses, List.length_filterMap_eq_countP]
    refine List.countP_congr fun p hp => ?_
    cases h2 : p.2 <;> simp [h2, Except.toOption, Except.isOk, Except.toBool]
  · rw [weeklyAnalyses, List.countP_filterMap]
    have hpt : ∀ p ∈ outcomes, (((p.2.toOption).map fun s => s.action == "error").getD false)
        = false := by
      intro p hp
      cases h2 : p.2 with
      | ok s =>
        have hs : s.action ≠ "error" := hok p hp s h2
        simp [h2, Except.toOption, hs]
      | error msg => simp [h2, Except.toOption]
    calc (outcomes.countP fun p => ((p.2.toOption).map fun s => s.action == "error").getD false)
        = outcomes.countP fun _ => false :=
          List.countP_congr fun p hp => by rw [hpt p hp]
      _ = 0 := by simp
  · intro hpos
    have hne : (weeklyAnalyses outcomes).length ≠ 0 := by
      rw [weeklyAnalyses, List.length_filterMap_eq_countP]
      have heq : (outcomes.countP fun p => (p.2.toOption).isSome)
          = outcomes.countP fun p => p.2.isOk := by
        refine List.countP_congr fun p hp => ?_
        cases h2 : p.2 <;> simp [h2, Except.toOption, Except.isOk, Except.toBool]
      omega
    rw [weeklyAnalysisRun, if_neg hne]

/-- Witness for C4's amended theorem on a two-ticker batch with one
failure. -/
theorem batch_aggregate_spec_witness :
    (tradingBotSignals
        [("AAPL", Except.ok sampleHold), ("MSFT", Except.error "fetch failed")]).length = 2 ∧
    (tradingBotSignals
        [("AAPL", Except.ok sampleHold), ("MSFT", Except.error "fetch failed")]).countP
      (fun s => s.action == "error") = 1 ∧
    (tradingBotRunDry
        [("AAPL", Except.ok sampleHold), ("MSFT", Except.error "fetch failed")]).success = true ∧
    (weeklyAnalyses
        [("AAPL", Except.ok sampleHold), ("MSFT", Except.error "fetch failed")]).length = 1 := by
  have h := batch_aggregate_spec
      [("AAPL", Except.ok sampleHold), ("MSFT", Except.error "fetch failed")]
      (by intro p hp s hs
          simp only [List.mem_cons, List.not_mem_nil, or_false] at hp
          rcases hp with rfl | rfl
          · cases hs; decide
          · cases hs)
  refine ⟨h.1, by rw [h.2.1]; rfl, h.2.2.2.1, by rw [h.2.2.2.2.1]; rfl⟩

/-- Claim C5 counterexample: the trading-bot batch route, run in
dry-run mode over one ticker whose analysis fails, reports
`success: true` with an all-error aggregate instead of failing with a
"no tickers analyzed" error. -/
theorem tradingbot_allfail_reports_success :
    (tradingBotRunDry [("AAPL", Except.error "boom")]).success = true ∧
    (tradingBotRunDry [("AAPL", Except.error "boom")]).signals.countP
      (fun s => s.action == "error") = 1 :=
  ⟨rfl, rfl⟩

/-- Claim C5 amended: in the weekly-analysis batch routes an all-failed
run fails with the explicit "No tickers were successfully analyzed"
error; the trading-bot route instead still reports success (dry-run
path) over the all-error aggregate. -/
theorem batch_allfail_spec (outcomes : List (String × Except String RouteSignal))
    (h : ∀ p ∈ outcomes, p.2.isOk = false) :
    weeklyAnalysisRun outcomes = Except.error "No tickers were successfully analyzed" ∧
    (tradingBotRunDry outcomes).success = true := by
  refine ⟨?_, rfl⟩
  have hlen : (weeklyAnalyses outcomes).length = 0 := by
    rw [weeklyAnalyses, List.length_filterMap_eq_countP]
    calc (outcomes.countP fun p => (p.2.toOption).isSome)
        = outcomes.countP fun _ => false := by
          refine List.countP_congr fun p hp => ?_
          have := h p hp
          cases h2 : p.2 with
          | ok s => rw [h2] at this; cases this
          | error msg => simp [h2, Except.toOption]
      _ = 0 := by simp
  rw [weeklyAnalysisRun, if_pos hlen]

/-- Witness for C5's amended theorem on a single all-failed batch. -/
theorem batch_allfail_spec_witness :
    weeklyAnalysisRun [("AAPL", Except.error "boom")] =
      Except.error "No tickers were successfully analyzed" ∧
    (tradingBotRunDry [("AAPL", Except.error "boom")]).success = true :=
  batch_allfail_spec [("AAPL", Except.error "boom")]
    (by intro p hp
        simp only [List.mem_cons, List.not_mem_nil, or_false] at hp
        subst hp
        rfl)

/-- The shape of a JavaScript error as `withRetry` inspects it: an
optional nested response status and retry-after header, optional
top-level status and retry-after header, and an optional message. -/
structure JsError where
  responseStatus : Option Nat
  responseRetryAfter : Option String
  status : Option Nat
  headerRetryAfter : Option String
  message : Option String
deriving DecidableEq, Repr

/-- JavaScript `a || b` over optional numbers: undefined and 0 are
falsy. -/
def jsOrNum : Option Nat → Option Nat → Option Nat
  | some n, b => if n = 0 then b else some n
  | none, b => b

/-- JavaScript `a || b` over optional strings: undefined and the empty
string are falsy. -/
def jsOrStr : Option String → Option String → Option String
  | some s, b => if s = "" then b else some s
  | none, b => b

/-- JavaScript `a.includes(b)` substring test. -/
def strIncludes (a b : String) : Bool := (a.splitOn b).length > 1

/-- The status derivation of `withRetry`:
`err.response?.status || err.status ||
(err.message?.includes("429") ? 429 : null)`. -/
def statusOf (e : JsError) : Option Nat :=
  jsOrNum e.responseStatus (jsOrNum e.status
    (if (e.message.map fun m => strIncludes m "429").getD false then some 429 else none))

/-- The Retry-After hint lookup of `withRetry`:
`err.response?.headers?.["retry-after"] || err.headers?.["retry-after"]`. -/
def retryAfterOf (e : JsError) : Option String :=
  jsOrStr e.responseRetryAfter e.headerRetryAfter

/-- Environment of JavaScript built-ins `withRetry` leans on: the
clock (`Date.now()`), numeric string parsing (`Number`, with `none`
standing for NaN) and date parsing (`new Date(s).getTime()`, with
`none` standing for an invalid date's NaN). -/
structure JsEnv where
  now : ℚ
  parseNumber : String → Option ℚ
  parseDateMs : String → Option ℚ

/-- `Math.min(x, b)` where `x` may be NaN (`none`): NaN propagates. -/
def jsMinQ (x : Option ℚ) (b : ℚ) : Option ℚ := x.map fun q => min q b

/-- `Math.max(a, x)` where `x` may be NaN (`none`): NaN propagates. -/
def jsMaxQ (a : ℚ) (x : Option ℚ) : Option ℚ := x.map fun q => max a q

/-- The wait computed by `withRetry` after failed attempt `i`.  For a
429-classified error, the Retry-After hint (numeric seconds times
1000, otherwise the parsed timestamp minus now) or, with no hint, the
exponential fallback, is passed through
`Math.max(1000, Math.min(delay, 60000))`; NaN from an unparseable hint
propagates through that clamp.  A non-429 error waits a plain
unclamped `baseDelay * 2 ^ i`.  `hintDelay` is the rate-limited
branch's raw delay before clamping. -/
def hintDelay (env : JsEnv) (baseDelay : ℚ) (i : Nat) : Option String → Option ℚ
  | some s =>
    match env.parseNumber s with
    | some q => some (q * 1000)
    | none => (env.parseDateMs s).map fun t => t - env.now
  | none => some (baseDelay * 2 ^ i)

def retryDelay (env : JsEnv) (e : JsError) (baseDelay : ℚ) (i : Nat) : Option ℚ :=
  if statusOf e = some 429 then
    jsMaxQ 1000 (jsMinQ (hintDelay env baseDelay i (retryAfterOf e)) 60000)
  else some (baseDelay * 2 ^ i)

/-- Observable outcome of a `withRetry` run: the final result, the
number of invocations of the wrapped operation, and the waits slept
between attempts (`none` models NaN handed to `setTimeout`). -/
structure RetryTrace (α : Type) where
  result : Except JsError α
  attempts : Nat
  delays : List (Option ℚ)
deriving Repr

/-- The attempt loop of `withRetry` starting at attempt `i` with
`fuel` retries remaining: run the operation; on failure either rethrow
(retries exhausted) or sleep the computed wait and loop. -/
def withRetryAux {α : Type} (env : JsEnv) (fn : Nat → Except JsError α) (baseDelay : ℚ) :
    Nat → Nat → RetryTrace α
  | i, 0 =>
    match fn i with
    | Except.ok a => ⟨Except.ok a, 1, []⟩
    | Except.error e => ⟨Except.error e, 1, []⟩
  | i, fuel + 1 =>
    match fn i with
    | Except.ok a => ⟨Except.ok a, 1, []⟩
    | Except.error e =>
      let rest := withRetryAux env fn baseDelay (i + 1) fuel
      ⟨rest.result, rest.attempts + 1, retryDelay env e baseDelay i :: rest.delays⟩

/-- `withRetry` from `src/lib/utils`: at most `maxRetries + 1`
attempts of `fn`, rethrowing the last observed error when all fail.
The operation is indexed by the attempt number so that distinct
attempts may observe distinct errors. -/
def withRetry {α : Type} (env : JsEnv) (fn : Nat → Except JsError α) (maxRetries : Nat)
    (baseDelay : ℚ) : RetryTrace α :=
  withRetryAux env fn baseDelay 0 maxRetries

/-- On an everywhere-failing operation the attempt loop from `i` with
`fuel` retries left makes `fuel + 1` attempts, returns the last
attempt's error, and sleeps exactly the per-attempt computed waits. -/
theorem withRetryAux_allfail {α : Type} (env : JsEnv) (fn : Nat → Except JsError α)
    (errs : Nat → JsError) (baseDelay : ℚ)
    (hfail : ∀ j, fn j = Except.error (errs j)) :
    ∀ fuel i, withRetryAux env fn baseDelay i fuel =
      ⟨Except.error (errs (i + fuel)), fuel + 1,
        (List.range fuel).map fun k => retryDelay env (errs (i + k)) baseDelay (i + k)⟩ := by
  intro fuel
  induction fuel with
  | zero => intro i; simp [withRetryAux, hfail i]
  | succ fuel ih =>
    intro i
    have h1 : i + 1 + fuel = i + (fuel + 1) := by omega
    have hmap : ((List.range (fuel + 1)).map fun k =>
        retryDelay env (errs (i + k)) baseDelay (i + k)) =
        retryDelay env (errs i) baseDelay i ::
          ((List.range fuel).map fun k =>
            retryDelay env (errs (i + 1 + k)) baseDelay (i + 1 + k)) := by
      rw [List.range_succ_eq_map, List.map_cons, List.map_map]
      refine congrArg₂ _ rfl (List.map_congr_left fun a ha => ?_)
      simp only [Function.comp_apply]
      rw [show i + (a + 1) = i + 1 + a by omega]
    simp only [withRetryAux, hfail i]
    rw [ih (i + 1), hmap, ← h1]

/-- Claim C6: on an operation failing at every attempt, `withRetry`
invokes it exactly `maxRetries + 1` times and rethrows the error of
the final attempt unchanged: it never swallows terminal failure and
never substitutes a default value. -/
theorem withRetry_allfail {α : Type} (env : JsEnv) (fn : Nat → Except JsError α)
    (errs : Nat → JsError) (maxRetries : Nat) (baseDelay : ℚ)
    (hfail : ∀ j, fn j = Except.error (errs j)) :
    (withRetry env fn maxRetries baseDelay).attempts = maxRetries + 1 ∧
    (withRetry env fn maxRetries baseDelay).result = fn maxRetries := by
  rw [withRetry, withRetryAux_allfail env fn errs baseDelay hfail maxRetries 0]
  exact ⟨rfl, by rw [hfail maxRetries]; exact congrArg _ (congrArg _ (Nat.zero_add _))⟩

/-- A concrete environment: clock fixed at 0, parsers failing on every
string. -/
def testEnv : JsEnv :=
  { now := 0, parseNumber := fun _ => none, parseDateMs := fun _ => none }

/-- A concrete error family with distinct messages per attempt and no
rate-limit signal. -/
def testErr (j : Nat) : JsError :=
  { responseStatus := none, responseRetryAfter := none, status := none,
    headerRetryAfter := none, message := some (toString j) }

/-- A concrete operation failing on every attempt. -/
def alwaysFailOp (j : Nat) : Except JsError Nat := Except.error (testErr j)

/-- Witness for C6: four attempts with `maxRetries = 3`, final error
rethrown. -/
theorem withRetry_allfail_witness :
    (withRetry testEnv alwaysFailOp 3 2000).attempts = 3 + 1 ∧
    (withRetry testEnv alwaysFailOp 3 2000).result = alwaysFailOp 3 :=
  withRetry_allfail testEnv alwaysFailOp testErr 3 2000 fun _ => rfl

/-- A 429 error carrying a Retry-After hint that parses neither as a
number nor as a date. -/
def badHintErr : JsError :=
  { responseStatus := some 429, responseRetryAfter := some "soon",
    status := none, headerRetryAfter := none, message := none }

/-- Decidable membership of an optional wait in the claimed closed
interval from 1000 to 60000 milliseconds; NaN (`none`) is not in it. -/
def delayInRange (x : Option ℚ) : Bool :=
  match x with
  | some q => 1000 ≤ q ∧ q ≤ 60000
  | none => false

/-- An operation that always fails with the unparseable-hint 429
error. -/
def badHintOp (_ : Nat) : Except JsError Nat := Except.error badHintErr

/-- Claim C7 counterexample: a rate-limited (429) failure whose
Retry-After hint parses neither as a number nor as a date makes
`withRetry` wait NaN milliseconds (modelled `none`): NaN propagates
through `Math.min`/`Math.max`, so this rate-limited wait is not
clamped into the interval from 1000 to 60000 — `setTimeout(NaN)`
retries immediately. -/
theorem retry_nan_delay_escapes_clamp :
    statusOf badHintErr = some 429 ∧
    (withRetry testEnv badHintOp 1 2000).delays = [none] ∧
    delayInRange none = false := by
  refine ⟨rfl, ?_, rfl⟩
  rw [withRetry, withRetryAux_allfail testEnv badHintOp (fun _ => badHintErr) 2000
    (fun _ => rfl) 1 0]
  rfl

/-- Claim C7 amended: for every failed attempt `i < maxRetries` of an
everywhere-failing operation, the wait recorded for attempt `i` is
`retryDelay` of that attempt's error, where a non-429 error waits
exactly `baseDelay * 2 ^ i` with no clamping, and a 429 error's wait,
whenever it is a number at all, lies in the closed interval from 1000
to 60000: with no hint it is the clamp of `baseDelay * 2 ^ i`, with a
numeric hint the clamp of seconds times 1000, with a date-parseable
hint the clamp of its delta from now — but a hint parsing as neither
yields NaN, which escapes the clamp. -/
theorem withRetry_delay_spec {α : Type} (env : JsEnv) (fn : Nat → Except JsError α)
    (errs : Nat → JsError) (maxRetries : Nat) (baseDelay : ℚ) (i : Nat)
    (hfail : ∀ j, fn j = Except.error (errs j)) (hi : i < maxRetries) :
    (withRetry env fn maxRetries baseDelay).delays[i]? =
      some (retryDelay env (errs i) baseDelay i) ∧
    (statusOf (errs i) ≠ some 429 →
      retryDelay env (errs i) baseDelay i = some (baseDelay * 2 ^ i)) ∧
    (statusOf (errs i) = some 429 →
      (∀ q, retryDelay env (errs i) baseDelay i = some q → 1000 ≤ q ∧ q ≤ 60000) ∧
      (retryAfterOf (errs i) = none →
        retryDelay env (errs i) baseDelay i =
          some (max 1000 (min (baseDelay * 2 ^ i) 60000))) ∧
      (∀ s q, retryAfterOf (errs i) = some s → env.parseNumber s = some q →
        retryDelay env (errs i) baseDelay i = some (max 1000 (min (q * 1000) 60000))) ∧
      (∀ s t, retryAfterOf (errs i) = some s → env.parseNumber s = none →
        env.parseDateMs s = some t →
        retryDelay env (errs i) baseDelay i =
          some (max 1000 (min (t - env.now) 60000))) ∧
      (∀ s, retryAfterOf (errs i) = some s → env.parseNumber s = none →
        env.parseDateMs s = none →
        retryDelay env (errs i) baseDelay i = none)) := by
  refine ⟨?_, fun h429 => ?_, fun h429 => ⟨?_, ?_, ?_, ?_, ?_⟩⟩
  · rw [withRetry, withRetryAux_allfail env fn errs baseDelay hfail maxRetries 0]
    show ((List.range maxRetries).map fun k =>
      retryDelay env (errs (0 + k)) baseDelay (0 + k))[i]? = _
    rw [List.getElem?_map, List.getElem?_range hi]
    show some (retryDelay env (errs (0 + i)) baseDelay (0 + i)) = _
    rw [Nat.zero_add]
  · rw [retryDelay, if_neg h429]
  · intro q hq
    rw [retryDelay, if_pos h429] at hq
    rcases hy : hintDelay env baseDelay i (retryAfterOf (errs i)) with _ | y
    · rw [jsMinQ, hy] at hq
      simp only [Option.map_none'] at hq
      rw [jsMaxQ] at hq
      simp only [Option.map_none'] at hq
      cases hq
    · rw [jsMinQ, hy] at hq
      simp only [Option.map_some'] at hq
      rw [jsMaxQ] at hq
      simp only [Option.map_some', Option.some.injEq] at hq
      subst hq
      constructor
      · exact le_max_left _ _
      · exact max_le (by norm_num) (min_le_right _ _)
  · intro hra
    rw [retryDelay, if_pos h429, hra, hintDelay, jsMinQ, jsMaxQ]
    rfl
  · intro s q hra hnum
    rw [retryDelay, if_pos h429, hra, hintDelay, hnum, jsMinQ, jsMaxQ]
    rfl
  · intro s t hra hnum hdate
    rw [retryDelay, if_pos h429, hra, hintDelay, hnum, hdate, jsMinQ, jsMaxQ]
    rfl
  · intro s hra hnum hdate
    rw [retryDelay, if_pos h429, hra, hintDelay, hnum, hdate, jsMinQ, jsMaxQ]
    rfl

/-- An error family that is rate limited (429) with no hint on even
attempts and a plain failure on odd attempts. -/
def mixedErr (j : Nat) : JsError :=
  if j % 2 = 0 then
    { responseStatus := some 429, responseRetryAfter := none, status := none,
      headerRetryAfter := none, message := none }
  else testErr j

/-- An operation failing with `mixedErr` on every attempt. -/
def mixedFailOp (j : Nat) : Except JsError Nat := Except.error (mixedErr j)

/-- Witness for the amended C7 theorem on attempt 0 (a 429 failure
with no hint, clamped exponential fallback). -/
theorem withRetry_delay_spec_witness :
    ((withRetry testEnv mixedFailOp 2 2000).delays[0]? =
      some (retryDelay testEnv (mixedErr 0) 2000 0) ∧
    (statusOf (mixedErr 0) ≠ some 429 →
      retryDelay testEnv (mixedErr 0) 2000 0 = some (2000 * 2 ^ 0)) ∧
    (statusOf (mixedErr 0) = some 429 →
      (∀ q, retryDelay testEnv (mixedErr 0) 2000 0 = some q → 1000 ≤ q ∧ q ≤ 60000) ∧
      (retryAfterOf (mixedErr 0) = none →
        retryDelay testEnv (mixedErr 0) 2000 0 =
          some (max 1000 (min (2000 * 2 ^ 0) 60000))) ∧
      (∀ s q, retryAfterOf (mixedErr 0) = some s → testEnv.parseNumber s = some q →
        retryDelay testEnv (mixedErr 0) 2000 0 = some (max 1000 (min (q * 1000) 60000))) ∧
      (∀ s t, retryAfterOf (mixedErr 0) = some s → testEnv.parseNumber s = none →
        testEnv.parseDateMs s = some t →
        retryDelay testEnv (mixedErr 0) 2000 0 =
          some (max 1000 (min (t - testEnv.now) 60000))) ∧
      (∀ s, retryAfterOf (mixedErr 0) = some s → testEnv.parseNumber s = none →
        testEnv.parseDateMs s = none →
        retryDelay testEnv (mixedErr 0) 2000 0 = none))) :=
  withRetry_delay_spec testEnv mixedFailOp mixedErr 2 2000 0 (fun _ => rfl) (by omega)

/-- Runtime value of a would-be ticker entry handed to `updateTickers`:
a string, or some non-string JSON value. -/
inductive JsVal where
  | str (s : String)
  | nonString
deriving DecidableEq, Repr

/-- Runtime input to `updateTickers`: an array of values, or a
non-array. -/
inductive UpdateInput where
  | arr (xs : List JsVal)
  | notArray
deriving DecidableEq, Repr

/-- Environment of `updateTickers`: the optional `EDGE_CONFIG`,
`VERCEL_API_TOKEN` and `EDGE_CONFIG_ID` variables, and whether the
remote PATCH call reports ok. -/
structure EdgeEnv where
  edgeConfig : Option String
  vercelApiToken : Option String
  edgeConfigId : Option String
  patchOk : Bool
deriving DecidableEq, Repr

/-- JavaScript truthiness of an optional string: undefined and the
empty string are falsy. -/
def jsTruthyStr : Option String → Bool
  | some s => s ≠ ""
  | none => false

/-- Result of `updateTickers`: the success flag, whether the remote
Edge Config PATCH was issued, and the error message if any. -/
structure UpdateResult where
  success : Bool
  remoteCalled : Bool
  errorMsg : Option String
deriving DecidableEq, Repr

/-- The entry validation of `updateTickers`:
`typeof ticker !== "string" || ticker.trim().length === 0`. -/
def invalidEntry : JsVal → Bool
  | JsVal.str s => s.trim = ""
  | JsVal.nonString => true

/-- `updateTickers` from the ticker actions module: rejects a
non-array input, rejects a list containing an invalid entry, requires
the Edge Config environment variables, then issues the remote PATCH
and succeeds exactly when it reports ok. -/
def updateTickers (env : EdgeEnv) (input : UpdateInput) : UpdateResult :=
  match input with
  | UpdateInput.notArray =>
    { success := false, remoteCalled := false,
      errorMsg := some "Tickers must be an array" }
  | UpdateInput.arr xs =>
    if 0 < (xs.filter invalidEntry).length then
      { success := false, remoteCalled := false,
        errorMsg := some "All tickers must be non-empty strings" }
    else if ¬ jsTruthyStr env.edgeConfig then
      { success := false, remoteCalled := false,
        errorMsg := some "Edge Config is not configured. Please set EDGE_CONFIG environment variable." }
    else if ¬ jsTruthyStr env.vercelApiToken ∨ ¬ jsTruthyStr env.edgeConfigId then
      { success := false, remoteCalled := false,
        errorMsg := some "Missing VERCEL_API_TOKEN or EDGE_CONFIG_ID environment variables" }
    else if env.patchOk then
      { success := true, remoteCalled := true, errorMsg := none }
    else
      { success := false, remoteCalled := true,
        errorMsg := some "Failed to update Edge Config" }

/-- With an invalid entry present, `updateTickers` answers the
validation failure and never reaches the remote call. -/
theorem updateTickers_invalid_mem (env : EdgeEnv) (xs : List JsVal) (v : JsVal)
    (hv : v ∈ xs) (hinv : invalidEntry v = true) :
    updateTickers env (UpdateInput.arr xs) =
      { success := false, remoteCalled := false,
        errorMsg := some "All tickers must be non-empty strings" } := by
  have hmem : v ∈ xs.filter invalidEntry := List.mem_filter.mpr ⟨hv, hinv⟩
  have hlen : 0 < (xs.filter invalidEntry).length := List.length_pos_of_mem hmem
  simp only [updateTickers, if_pos hlen]

/-- Claim C8: `updateTickers` fails without performing the remote
update when the input is not an array, when some entry is not a
string, or when some entry trims to the empty string; and whenever it
succeeds, every entry was a string with non-empty trim. -/
theorem updateTickers_spec (env : EdgeEnv) (xs : List JsVal) (v : JsVal) (s : String) :
    ((updateTickers env UpdateInput.notArray).success = false ∧
      (updateTickers env UpdateInput.notArray).remoteCalled = false ∧
      (updateTickers env UpdateInput.notArray).errorMsg.isSome) ∧
    (JsVal.nonString ∈ xs →
      (updateTickers env (UpdateInput.arr xs)).success = false ∧
      (updateTickers env (UpdateInput.arr xs)).remoteCalled = false ∧
      (updateTickers env (UpdateInput.arr xs)).errorMsg.isSome) ∧
    (JsVal.str s ∈ xs → s.trim = "" →
      (updateTickers env (UpdateInput.arr xs)).success = false ∧
      (updateTickers env (UpdateInput.arr xs)).remoteCalled = false ∧
      (updateTickers env (UpdateInput.arr xs)).errorMsg.isSome) ∧
    ((updateTickers env (UpdateInput.arr xs)).success = true →
      v ∈ xs → ∃ t, v = JsVal.str t ∧ t.trim ≠ "") := by
  refine ⟨⟨rfl, rfl, rfl⟩, fun hmem => ?_, fun hmem htrim => ?_, fun hsucc hv => ?_⟩
  · rw [updateTickers_invalid_mem env xs JsVal.nonString hmem rfl]
    exact ⟨rfl, rfl, rfl⟩
  · rw [updateTickers_invalid_mem env xs (JsVal.str s) hmem
      (by simp [invalidEntry, htrim])]
    exact ⟨rfl, rfl, rfl⟩
  · cases v with
    | nonString =>
      rw [updateTickers_invalid_mem env xs JsVal.nonString hv rfl] at hsucc
      cases hsucc
    | str t =>
      refine ⟨t, rfl, fun htrim => ?_⟩
      rw [updateTickers_invalid_mem env xs (JsVal.str t) hv
        (by simp [invalidEntry, htrim])] at hsucc
      cases hsucc

/-- A fully configured environment for concrete `updateTickers` runs. -/
def sampleEdgeEnv : EdgeEnv :=
  { edgeConfig := some "cfg", vercelApiToken := some "tok",
    edgeConfigId := some "id", patchOk := true }

/-- Witness for C8 on the list `["AAPL", " "]` whose second entry trims
to empty. -/
theorem updateTickers_spec_witness :
    ((updateTickers sampleEdgeEnv UpdateInput.notArray).success = false ∧
      (updateTickers sampleEdgeEnv UpdateInput.notArray).remoteCalled = false ∧
      (updateTickers sampleEdgeEnv UpdateInput.notArray).errorMsg.isSome) ∧
    (JsVal.nonString ∈ [JsVal.str "AAPL", JsVal.str " "] →
      (updateTickers sampleEdgeEnv (UpdateInput.arr [JsVal.str "AAPL", JsVal.str " "])).success = false ∧
      (updateTickers sampleEdgeEnv (UpdateInput.arr [JsVal.str "AAPL", JsVal.str " "])).remoteCalled = false ∧
      (updateTickers sampleEdgeEnv (UpdateInput.arr [JsVal.str "AAPL", JsVal.str " "])).errorMsg.isSome) ∧
    (JsVal.str " " ∈ [JsVal.str "AAPL", JsVal.str " "] → (" " : String).trim = "" →
      (updateTickers sampleEdgeEnv (UpdateInput.arr [JsVal.str "AAPL", JsVal.str " "])).success = false ∧
      (updateTickers sampleEdgeEnv (UpdateInput.arr [JsVal.str "AAPL", JsVal.str " "])).remoteCalled = false ∧
      (updateTickers sampleEdgeEnv (UpdateInput.arr [JsVal.str "AAPL", JsVal.str " "])).errorMsg.isSome) ∧
    ((updateTickers sampleEdgeEnv (UpdateInput.arr [JsVal.str "AAPL", JsVal.str " "])).success = true →
      JsVal.str " " ∈ [JsVal.str "AAPL", JsVal.str " "] →
      ∃ t, JsVal.str " " = JsVal.str t ∧ t.trim ≠ "") :=
  updateTickers_spec sampleEdgeEnv [JsVal.str "AAPL", JsVal.str " "] (JsVal.str " ") " "

/-- Sides of an order handed to the Robinhood client. -/
inductive Side where
  | buy
  | sell
deriving DecidableEq, Repr

/-- An order submitted by `executeTradingStrategy`. -/
structure Order where
  symbol : String
  quantity : ℚ
  side : Side
deriving DecidableEq, Repr

/-- A brokerage position as returned by `getPositions`. -/
structure Position where
  symbol : String
  quantity : ℚ
deriving DecidableEq, Repr

/-- `positions.find(p => p.symbol === symbol)?.quantity || 0`. -/
def positionQuantity (positions : List Position) (symbol : String) : ℚ :=
  match positions.find? (fun p => p.symbol == symbol) with
  | some p => p.quantity
  | none => 0

/-- The signal-collection loop of `executeTradingStrategy`: failed
per-ticker analyses are logged and skipped. -/
def strategySignals (outcomes : List (Except String TradingSignal)) : List TradingSignal :=
  outcomes.filterMap Except.toOption

/-- The trade-execution loop of `executeTradingStrategy` over the
collected signals: hold is skipped; buy computes
`Math.floor(TRADE_AMOUNT / currentPrice)` and orders only when that
quantity is positive; sell orders the currently held quantity only
when it is positive. -/
def tradeLoop (tradeAmount : ℚ) (positions : List Position) :
    List TradingSignal → List Order
  | [] => []
  | sig :: rest =>
    match sig.action with
    | Action.hold => tradeLoop tradeAmount positions rest
    | Action.buy =>
      if 0 < Int.floor (tradeAmount / sig.currentPrice) then
        { symbol := sig.symbol,
          quantity := (Int.floor (tradeAmount / sig.currentPrice) : ℚ),
          side := Side.buy } :: tradeLoop tradeAmount positions rest
      else tradeLoop tradeAmount positions rest
    | Action.sell =>
      if 0 < positionQuantity positions sig.symbol then
        { symbol := sig.symbol, quantity := positionQuantity positions sig.symbol,
          side := Side.sell } :: tradeLoop tradeAmount positions rest
      else tradeLoop tradeAmount positions rest

/-- `executeTradingStrategy(tickers, client, dryRun)`: analyze each
ticker (collecting the successes), return before any trading in
dry-run mode, and otherwise run the trade loop. -/
def executeTradingStrategy (outcomes : List (Except String TradingSignal))
    (positions : List Position) (tradeAmount : ℚ) (dryRun : Bool) : List Order :=
  if dryRun then []
  else tradeLoop tradeAmount positions (strategySignals outcomes)

/-- Modelled from the claim C9 wording: the order the claim permits
for one signal — a buy only when `floor(TRADE_AMOUNT / currentPrice)`
is positive and with exactly that quantity, a sell only when the held
quantity is positive and of exactly that quantity, and nothing on
hold. -/
def claimedOrder (tradeAmount : ℚ) (positions : List Position) (sig : TradingSignal) :
    Option Order :=
  match sig.action with
  | Action.hold => none
  | Action.buy =>
    if 0 < Int.floor (tradeAmount / sig.currentPrice) then
      some { symbol := sig.symbol,
             quantity := (Int.floor (tradeAmount / sig.currentPrice) : ℚ),
             side := Side.buy }
    else none
  | Action.sell =>
    if 0 < positionQuantity positions sig.symbol then
      some { symbol := sig.symbol, quantity := positionQuantity positions sig.symbol,
             side := Side.sell }
    else none

/-- Any order permitted by the claim's prescription has strictly
positive quantity. -/
theorem claimedOrder_pos (tradeAmount : ℚ) (positions : List Position)
    (sig : TradingSignal) (o : Order)
    (h : claimedOrder tradeAmount positions sig = some o) : 0 < o.quantity := by
  rw [claimedOrder] at h
  cases ha : sig.action with
  | hold => rw [ha] at h; cases h
  | buy =>
    rw [ha] at h
    by_cases hq : 0 < Int.floor (tradeAmount / sig.currentPrice)
    · rw [if_pos hq] at h
      cases h
      show (0 : ℚ) < (Int.floor (tradeAmount / sig.currentPrice) : ℚ)
      exact_mod_cast hq
    · rw [if_neg hq] at h; cases h
  | sell =>
    rw [ha] at h
    by_cases hq : 0 < positionQuantity positions sig.symbol
    · rw [if_pos hq] at h
      cases h
      exact hq
    · rw [if_neg hq] at h; cases h

/-- The execution loop emits exactly the orders the claim prescribes
per collected signal, in order. -/
theorem tradeLoop_eq_filterMap (tradeAmount : ℚ) (positions : List Position) :
    ∀ sigs : List TradingSignal,
      tradeLoop tradeAmount positions sigs =
        sigs.filterMap (claimedOrder tradeAmount positions)
  | [] => rfl
  | sig :: rest => by
    have ih := tradeLoop_eq_filterMap tradeAmount positions rest
    cases ha : sig.action with
    | hold => simp [tradeLoop, List.filterMap_cons, claimedOrder, ha, ih]
    | buy =>
      by_cases hq : 0 < Int.floor (tradeAmount / sig.currentPrice)
      · simp [tradeLoop, List.filterMap_cons, claimedOrder, ha, hq, ih]
      · simp [tradeLoop, List.filterMap_cons, claimedOrder, ha, hq, ih]
    | sell =>
      by_cases hq : 0 < positionQuantity positions sig.symbol
      · simp [tradeLoop, List.filterMap_cons, claimedOrder, ha, hq, ih]
      · simp [tradeLoop, List.filterMap_cons, claimedOrder, ha, hq, ih]

/-- Claim C9: in dry-run mode `executeTradingStrategy` places no
orders at all; otherwise it places exactly the orders prescribed per
signal — a buy only when `floor(TRADE_AMOUNT / currentPrice) > 0` and
with that quantity, a sell only when the held quantity is positive and
of exactly that quantity, nothing on hold — and every placed order has
strictly positive quantity. -/
theorem executeTradingStrategy_spec (outcomes : List (Except String TradingSignal))
    (positions : List Position) (tradeAmount : ℚ) (o : Order) :
    executeTradingStrategy outcomes positions tradeAmount true = [] ∧
    executeTradingStrategy outcomes positions tradeAmount false =
      (strategySignals outcomes).filterMap (claimedOrder tradeAmount positions) ∧
    (o ∈ executeTradingStrategy outcomes positions tradeAmount false →
      0 < o.quantity) := by
  have hrun : executeTradingStrategy outcomes positions tradeAmount false =
      (strategySignals outcomes).filterMap (claimedOrder tradeAmount positions) := by
    rw [executeTradingStrategy, if_neg (by simp)]
    exact tradeLoop_eq_filterMap tradeAmount positions (strategySignals outcomes)
  refine ⟨rfl, hrun, fun ho => ?_⟩
  rw [hrun] at ho
  obtain ⟨sig, _, hco⟩ := List.mem_filterMap.mp ho
  exact claimedOrder_pos tradeAmount positions sig o hco

/-- A concrete buy signal: price 100, 200-day SMA 80. -/
def sampleBuySignal : TradingSignal :=
  { symbol := "AAPL", action := Action.buy, currentPrice := 100, sma200 := 80,
    deviation := jsDiv (100 - 80) 80 }

/-- The order the sample buy signal should produce with a 1000 trade
amount. -/
def sampleBuyOrder : Order :=
  { symbol := "AAPL", quantity := (Int.floor ((1000 : ℚ) / 100) : ℚ), side := Side.buy }

/-- Witness for C9 on one successful buy signal, no positions and a
1000 trade amount. -/
theorem executeTradingStrategy_spec_witness :
    executeTradingStrategy [Except.ok sampleBuySignal] [] 1000 true = [] ∧
    executeTradingStrategy [Except.ok sampleBuySignal] [] 1000 false =
      (strategySignals [Except.ok sampleBuySignal]).filterMap (claimedOrder 1000 []) ∧
    (sampleBuyOrder ∈ executeTradingStrategy [Except.ok sampleBuySignal] [] 1000 false →
      0 < sampleBuyOrder.quantity) :=
  executeTradingStrategy_spec [Except.ok sampleBuySignal] [] 1000 sampleBuyOrder

/-- Runtime input to `previewTicker`: a string or a non-string value
(covering the falsy and type-mismatch rejections). -/
inductive PreviewInput where
  | str (s : String)
  | nonString
deriving DecidableEq, Repr

/-- Result of `previewTicker`; `analyzed` records the symbol the
analysis pipeline was invoked on (`none` when it was never invoked). -/
structure PreviewResult where
  success : Bool
  ticker : Option String
  payload : Option RouteSignal
  errorMsg : Option String
  analyzed : Option String
deriving DecidableEq, Repr

/-- The not-found rewriting of `previewTicker`'s error path: messages
containing "Not Found", "No data found" or "Invalid ticker" are
rendered as a friendly message naming the raw input. -/
def previewErrorMsg (raw msg : String) : String :=
  if strIncludes msg "Not Found" || strIncludes msg "No data found" ||
      strIncludes msg "Invalid ticker" then
    "Ticker \x22" ++ raw ++ "\x22 not found. Please verify the symbol is correct."
  else msg

/-- `previewTicker` from the ticker actions module: rejects falsy or
non-string input and whitespace-only symbols without invoking the
pipeline; otherwise trims and upper-cases the symbol, analyzes exactly
that normalized symbol, and wraps the outcome. -/
def previewTicker (analyze : String → Except String RouteSignal) :
    PreviewInput → PreviewResult
  | PreviewInput.nonString =>
    { success := false, ticker := none, payload := none,
      errorMsg := some "Ticker symbol is required and must be a string",
      analyzed := none }
  | PreviewInput.str s =>
    if s = "" then
      { success := false, ticker := none, payload := none,
        errorMsg := some "Ticker symbol is required and must be a string",
        analyzed := none }
    else if (s.trim.toUpper).length = 0 then
      { success := false, ticker := none, payload := none,
        errorMsg := some "Ticker symbol cannot be empty", analyzed := none }
    else
      match analyze (s.trim.toUpper) with
      | Except.ok d =>
        { success := true, ticker := some (s.trim.toUpper), payload := some d,
          errorMsg := none, analyzed := some (s.trim.toUpper) }
      | Except.error msg =>
        { success := false, ticker := none, payload := none,
          errorMsg := some (previewErrorMsg s msg), analyzed := some (s.trim.toUpper) }

/-- Claim C10: `previewTicker` rejects a non-string input and any
input trimming to the empty string with a failure carrying an error
message, without ever invoking the analysis pipeline; and whenever it
succeeds, the reported ticker is the trimmed upper-cased input, which
is exactly the symbol that was analyzed. -/
theorem previewTicker_spec (analyze : String → Except String RouteSignal) (s : String) :
    ((previewTicker analyze PreviewInput.nonString).success = false ∧
      (previewTicker analyze PreviewInput.nonString).errorMsg.isSome ∧
      (previewTicker analyze PreviewInput.nonString).analyzed = none) ∧
    (s.trim = "" →
      (previewTicker analyze (PreviewInput.str s)).success = false ∧
      (previewTicker analyze (PreviewInput.str s)).errorMsg.isSome ∧
      (previewTicker analyze (PreviewInput.str s)).analyzed = none) ∧
    ((previewTicker analyze (PreviewInput.str s)).success = true →
      (previewTicker analyze (PreviewInput.str s)).ticker = some (s.trim.toUpper) ∧
      (previewTicker analyze (PreviewInput.str s)).analyzed = some (s.trim.toUpper)) := by
  refine ⟨⟨rfl, rfl, rfl⟩, fun ht => ?_, fun hsucc => ?_⟩
  · by_cases hs : s = ""
    · subst hs
      exact ⟨rfl, rfl, rfl⟩
    · have hlen : (s.trim.toUpper).length = 0 := by
        rw [ht, String.toUpper, String.map_eq]
        rfl
      simp [previewTicker, hs, hlen]
  · by_cases hs : s = ""
    · subst hs
      simp [previewTicker] at hsucc
    · by_cases hlen : (s.trim.toUpper).length = 0
      · simp only [previewTicker, if_neg hs, if_pos hlen] at hsucc
        cases hsucc
      · simp only [previewTicker, if_neg hs, if_neg hlen] at hsucc ⊢
        cases han : analyze (s.trim.toUpper) with
        | ok d => simp [han]
        | error msg =>
          simp only [han] at hsucc
          cases hsucc

/-- A concrete analysis pipeline that succeeds on every symbol with a
hold signal naming that symbol. -/
def okAnalyze (sym : String) : Except String RouteSignal :=
  Except.ok { symbol := sym, action := "hold", currentPrice := 100, sma200 := 100,
              deviation := 0, reason := "within threshold" }

/-- Witness for C10 on the raw input " aapl " (trims and upper-cases
to "AAPL"). -/
theorem previewTicker_spec_witness :
    ((previewTicker okAnalyze PreviewInput.nonString).success = false ∧
      (previewTicker okAnalyze PreviewInput.nonString).errorMsg.isSome ∧
      (previewTicker okAnalyze PreviewInput.nonString).analyzed = none) ∧
    ((" aapl " : String).trim = "" →
      (previewTicker okAnalyze (PreviewInput.str " aapl ")).success = false ∧
      (previewTicker okAnalyze (PreviewInput.str " aapl ")).errorMsg.isSome ∧
      (previewTicker okAnalyze (PreviewInput.str " aapl ")).analyzed = none) ∧
    ((previewTicker okAnalyze (PreviewInput.str " aapl ")).success = true →
      (previewTicker okAnalyze (PreviewInput.str " aapl ")).ticker =
        some ((" aapl " : String).trim.toUpper) ∧
      (previewTicker okAnalyze (PreviewInput.str " aapl ")).analyzed =
        some ((" aapl " : String).trim.toUpper)) :=
  previewTicker_spec okAnalyze " aapl "

end AlgoTrading
